import Mathlib

/-!
# Verification of the signal alignment and similarity-scoring engine

Shallow embedding of `scripts/test/validate_output.py`: the down-mixer
(`mix_down`), the bounded cross-correlation aligner (`align_signals`), the
metric calculator (`compute_metrics`) and the pass/fail decision gate (the
`ok` expression of `validate`).

Modelling conventions:
* float samples are embedded as `ℚ` (exact arithmetic); quantities that the
  source computes with `sqrt`/`log`/`cos` (RMS, dB, FFT) live in `ℝ`/`ℂ`;
* a float NaN produced by a degenerate computation (mean over an empty axis,
  `np.corrcoef` with a zero-variance row) is embedded as `none : Option _`;
* a Python exception is embedded as `none`/`Except.error` in the result type;
* Python's `tuple` returned by `compute_metrics` is embedded as a `List`,
  because the source returns tuples of different arities on different paths.
-/

namespace ValidateOutput

/-- Python `int(q)` on a nonnegative-or-negative rational: truncation toward
zero, i.e. `num.tdiv den` (line 35: `int(rate * max_delay_ms / 1000.0)`). -/
def int_trunc (q : ℚ) : ℤ := q.num.tdiv (q.den : ℤ)

/-! ## Down-mixer (`mix_down`, line 25-26)

`np.mean(data, axis=1)` on an array of shape `(samples, channels)`: one mean
per sample frame.  The mean of an empty frame (zero channels) is NaN in
numpy (with a warning, not an exception), embedded as `none`; a zero-sample
input yields an empty output.  No path raises. -/
def mix_down (data : List (List ℚ)) : List (Option ℚ) :=
  data.map (fun frame =>
    if frame.length = 0 then none else some (frame.sum / (frame.length : ℚ)))

/-- Error vocabulary of the specification (§7); the source defines no such
exception classes. -/
inductive SignalError
  | emptySignal
  | alignmentWindow
  deriving DecidableEq

/-- Modelled from the spec: the Down-mixer contract of §4.2, used only to
compare the specified behaviour with the source's `mix_down`.  "Fails with
`EmptySignalError` if the AudioSignal has zero channels or zero samples",
otherwise sample `i` is the arithmetic mean of the channel samples at `i`. -/
def mix_down_spec (data : List (List ℚ)) : Except SignalError (List ℚ) :=
  if data.length = 0 ∨ data.any (fun frame => frame.length = 0) then
    Except.error SignalError.emptySignal
  else
    Except.ok (data.map (fun frame => frame.sum / (frame.length : ℚ)))

/-! ## Aligner (`align_signals`, lines 29-59) -/

/-- Line 35: `max_samples = int(rate * max_delay_ms / 1000.0)`. -/
def max_samples_of (rate : ℕ) (max_delay_ms : ℚ) : ℤ :=
  int_trunc ((rate : ℚ) * max_delay_ms / 1000)

/-- Line 39: `length = min(len(ref), len(tgt), rate * 5)`. -/
def truncLen (reference target : List ℚ) (rate : ℕ) : ℕ :=
  min (min reference.length target.length) (rate * 5)

/-- Lines 40: `ref = ref[:length]` (analysis window of the reference). -/
def refT (reference target : List ℚ) (rate : ℕ) : List ℚ :=
  reference.take (truncLen reference target rate)

/-- Line 41: `tgt = tgt[:length]` (analysis window of the target). -/
def tgtT (reference target : List ℚ) (rate : ℕ) : List ℚ :=
  target.take (truncLen reference target rate)

/-- The value of `signal.correlate(tgt, ref, mode="full")` at lag `l`:
`Σₙ tgt[n] · ref[n - l]` over the indices where both series are defined. -/
def corrAt (tgt ref : List ℚ) (l : ℤ) : ℚ :=
  ((List.range tgt.length).map (fun n =>
    tgt.getD n 0 *
      (if 0 ≤ (n : ℤ) - l ∧ (n : ℤ) - l < (ref.length : ℤ)
       then ref.getD ((n : ℤ) - l).toNat 0 else 0))).sum

/-- Line 44: `signal.correlation_lags(la, lv, mode="full")` is
`arange(-(lv - 1), la)`: the `la + lv - 1` lags from `-(lv-1)` upward. -/
def correlation_lags (la lv : ℕ) : List ℤ :=
  (List.range (la + lv - 1)).map (fun i : ℕ => (i : ℤ) + 1 - (lv : ℤ))

/-- The cross-correlation of the truncated series as a function of the lag
(line 43, evaluated pointwise). -/
def alignCorr (reference target : List ℚ) (rate : ℕ) (l : ℤ) : ℚ :=
  corrAt (tgtT reference target rate) (refT reference target rate) l

/-- Line 45: `valid = np.where(np.abs(lags) <= max_samples)[0]` — the
candidate lags surviving the window restriction, in scan order. -/
def validLags (reference target : List ℚ) (rate : ℕ) (max_delay_ms : ℚ) : List ℤ :=
  (correlation_lags (tgtT reference target rate).length
      (refT reference target rate).length).filter
    (fun l => decide (|l| ≤ max_samples_of rate max_delay_ms))

/-- Semantics of `np.argmax`: the first element attaining the maximum of `f`,
`none` on an empty list (numpy raises `ValueError` there). -/
def argmaxFirst (f : ℤ → ℚ) : List ℤ → Option ℤ
  | [] => none
  | x :: xs => some (xs.foldl (fun b l => if f b < f l then l else b) x)

/-- Lines 46-47: `best = valid[np.argmax(correlation[valid])]; lag = lags[best]`. -/
def selectedLag (reference target : List ℚ) (rate : ℕ) (max_delay_ms : ℚ) : Option ℤ :=
  argmaxFirst (alignCorr reference target rate)
    (validLags reference target rate max_delay_ms)

/-- Lines 29-59, `align_signals`: pick the best lag inside the window, then
slice the untruncated inputs.  `none` embeds the `ValueError` numpy raises
when the candidate set is empty (only possible for empty inputs or a
negative window).  Python slice semantics: `reference[:-lag]` is
`take (len - lag)`, `target[lag:]` is `drop lag`, `reference[-lag:]` is
`drop (-lag)`, `target[:lag]` (`lag < 0`) is `take (len + lag)`, all
clamped at the ends exactly as `List.take`/`List.drop` clamp. -/
def align_signals (reference target : List ℚ) (rate : ℕ) (max_delay_ms : ℚ) :
    Option (List ℚ × List ℚ × ℤ) :=
  match selectedLag reference target rate max_delay_ms with
  | none => none
  | some lag =>
    if 0 < lag then
      some (if lag < (reference.length : ℤ)
              then reference.take (reference.length - lag.toNat) else [],
            target.drop lag.toNat, lag)
    else if lag < 0 then
      some (reference.drop (-lag).toNat,
            target.take (target.length - (-lag).toNat), lag)
    else
      some (reference, target, lag)

/-! ## Metric calculator (`compute_metrics`, lines 62-86) -/

/-- The centered cross-moment `Σᵢ (xᵢ - x̄)(yᵢ - ȳ)` underlying
`np.corrcoef` (line 72); the covariance normalisation constants cancel in
the correlation ratio, so they are omitted. -/
def sxy (xs ys : List ℚ) : ℚ :=
  (List.zipWith (fun a b => (a - xs.sum / (xs.length : ℚ)) * (b - ys.sum / (ys.length : ℚ)))
    xs ys).sum

/-- Line 72: `float(np.corrcoef(ref, tgt)[0, 1])`.  When either series has
zero variance the 0/0 division inside `corrcoef` yields NaN (embedded as
`none`); otherwise the Pearson coefficient.  (numpy's clip to `[-1, 1]` is
the identity in exact arithmetic, by Cauchy-Schwarz.) -/
noncomputable def corrcoef (xs ys : List ℚ) : Option ℝ :=
  if sxy xs xs = 0 ∨ sxy ys ys = 0 then none
  else some ((sxy xs ys : ℝ) / (Real.sqrt (sxy xs xs : ℚ) * Real.sqrt (sxy ys ys : ℚ)))

/-- Line 74: `np.hanning(M)`; numpy returns `[1.]` for `M = 1` and
`0.5 - 0.5*cos(2πn/(M-1))` for `n < M` otherwise. -/
noncomputable def hanning (M : ℕ) : List ℝ :=
  if M = 1 then [1]
  else (List.range M).map (fun n : ℕ =>
    1 / 2 - 1 / 2 * Real.cos (2 * Real.pi * (n : ℝ) / ((M : ℝ) - 1)))

/-- Elementwise product of a sample list with a window (lines 75-76,
`ref * window`). -/
noncomputable def windowed (xs : List ℚ) (w : List ℝ) : List ℝ :=
  List.zipWith (fun a b => (a : ℝ) * b) xs w

/-- Lines 75-76: `np.fft.rfft(x)` — the `⌊N/2⌋ + 1` leading DFT
coefficients `X_k = Σₙ xₙ · exp(-2πi·n·k/N)`. -/
noncomputable def rfft (xs : List ℝ) : List ℂ :=
  (List.range (xs.length / 2 + 1)).map (fun k : ℕ =>
    ((List.range xs.length).map (fun n : ℕ =>
      (xs.getD n 0 : ℂ) *
        Complex.exp (-(2 * (Real.pi : ℂ) * Complex.I * (n : ℂ) * (k : ℂ)) / (xs.length : ℂ)))).sum)

/-- Lines 77-78: the spectral magnitude vector `np.abs(rfft(...))`. -/
noncomputable def magSpectrum (xs : List ℚ) (w : List ℝ) : List ℝ :=
  (rfft (windowed xs w)).map (fun z => Complex.abs z)

/-- The `np.linalg.norm` of a real vector (line 79). -/
noncomputable def vecNorm (xs : List ℝ) : ℝ :=
  Real.sqrt ((xs.map (fun x => x ^ 2)).sum)

/-- The `np.dot` of two real vectors (line 80). -/
def dotProd (xs ys : List ℝ) : ℝ :=
  (List.zipWith (fun a b => a * b) xs ys).sum

/-- Lines 74-80: cosine similarity of the two Hann-windowed magnitude
spectra, 0 when either spectrum has zero norm (`... if denom else 0.0`). -/
noncomputable def spectral_similarity (ref tgt : List ℚ) : ℝ :=
  let window := hanning ref.length
  let ref_mag := magSpectrum ref window
  let tgt_mag := magSpectrum tgt window
  let denom := vecNorm ref_mag * vecNorm tgt_mag
  if denom = 0 then 0 else dotProd ref_mag tgt_mag / denom

/-- Lines 82-83: `np.sqrt(np.mean(x ** 2)) + 1e-12` — the RMS amplitude
with the numerical floor. -/
noncomputable def rmsFloor (xs : List ℚ) : ℝ :=
  Real.sqrt (((xs.map (fun x => x ^ 2)).sum / (xs.length : ℚ) : ℚ)) + 1 / 10 ^ 12

/-- Line 84: `rms_db = 20.0 * np.log10(tgt_rms / ref_rms)`. -/
noncomputable def rms_db (reference target : List ℚ) : ℝ :=
  20 * Real.logb 10 (rmsFloor target / rmsFloor reference)

/-- Lines 62-86, `compute_metrics`.  The result is the returned Python
tuple, embedded as a list so that the two return paths can be compared:
the zero-length path (line 68) returns the 2-tuple `(0.0, 0.0)` while the
normal path returns the 3-tuple `(corr, spectral_similarity, rms_db)` —
the declared return type is `tuple[float, float, float]`. -/
noncomputable def compute_metrics (reference target : List ℚ) : List (Option ℝ) :=
  if min reference.length target.length = 0 then [some 0, some 0]
  else
    [corrcoef (reference.take (min reference.length target.length))
        (target.take (min reference.length target.length)),
     some (spectral_similarity (reference.take (min reference.length target.length))
        (target.take (min reference.length target.length))),
     some (rms_db (reference.take (min reference.length target.length))
        (target.take (min reference.length target.length)))]

/-! ## Decision gate (`validate`, lines 118-124) -/

/-- The `ok` expression of `validate`: pass iff the sample rates match, the
channel counts match, `corr >= min_correlation`,
`spectral_similarity >= min_spectral_similarity` and
`abs(rms_db) <= max_rms_db_diff`. -/
def validate_ok (sample_rate_match channels_match : Bool)
    (corr spectral rms_db_v : ℚ)
    (min_correlation min_spectral_similarity max_rms_db_diff : ℚ) : Bool :=
  sample_rate_match && channels_match &&
    decide (min_correlation ≤ corr) &&
    decide (min_spectral_similarity ≤ spectral) &&
    decide (|rms_db_v| ≤ max_rms_db_diff)

/-! ## Helper lemmas about the argmax fold -/

theorem foldl_argmax_mem (f : ℤ → ℚ) :
    ∀ (xs : List ℤ) (a : ℤ),
      xs.foldl (fun b l => if f b < f l then l else b) a ∈ a :: xs
  | [], a => by simp
  | y :: ys, a => by
    simp only [List.foldl_cons]
    by_cases hc : f a < f y
    · rw [if_pos hc]
      have h := foldl_argmax_mem f ys y
      rcases List.mem_cons.mp h with h1 | h1
      · rw [h1]
        exact List.mem_cons_of_mem _ (List.mem_cons_self _ _)
      · exact List.mem_cons_of_mem _ (List.mem_cons_of_mem _ h1)
    · rw [if_neg hc]
      have h := foldl_argmax_mem f ys a
      rcases List.mem_cons.mp h with h1 | h1
      · rw [h1]
        exact List.mem_cons_self _ _
      · exact List.mem_cons_of_mem _ (List.mem_cons_of_mem _ h1)

theorem foldl_argmax_le (f : ℤ → ℚ) :
    ∀ (xs : List ℤ) (a : ℤ), ∀ m ∈ a :: xs,
      f m ≤ f (xs.foldl (fun b l => if f b < f l then l else b) a)
  | [], a => by
    intro m hm
    simp only [List.foldl_nil]
    rcases List.mem_cons.mp hm with h | h
    · rw [h]
    · cases h
  | y :: ys, a => by
    intro m hm
    simp only [List.foldl_cons]
    by_cases hc : f a < f y
    · rw [if_pos hc]
      have ih := foldl_argmax_le f ys y
      rcases List.mem_cons.mp hm with h | h
      · exact h ▸ le_trans (le_of_lt hc) (ih y (List.mem_cons_self _ _))
      · exact ih m h
    · rw [if_neg hc]
      have ih := foldl_argmax_le f ys a
      rcases List.mem_cons.mp hm with h | h
      · exact h ▸ ih a (List.mem_cons_self _ _)
      · rcases List.mem_cons.mp h with h1 | h1
        · exact h1 ▸ le_trans (le_of_not_lt hc) (ih a (List.mem_cons_self _ _))
        · exact ih m (List.mem_cons_of_mem _ h1)

theorem foldl_argmax_first (f : ℤ → ℚ) :
    ∀ (xs : List ℤ) (a : ℤ), (a :: xs).Pairwise (· < ·) →
      ∀ m ∈ a :: xs,
        f m = f (xs.foldl (fun b l => if f b < f l then l else b) a) →
        xs.foldl (fun b l => if f b < f l then l else b) a ≤ m
  | [], a => by
    intro _ m hm _
    simp only [List.foldl_nil]
    rcases List.mem_cons.mp hm with h | h
    · exact le_of_eq h.symm
    · cases h
  | y :: ys, a => by
    intro hsort m hm hfm
    simp only [List.foldl_cons] at hfm ⊢
    have hay : a < y := (List.pairwise_cons.mp hsort).1 _ (List.mem_cons_self _ _)
    have hays : ∀ z ∈ ys, a < z := fun z hz =>
      (List.pairwise_cons.mp hsort).1 _ (List.mem_cons_of_mem _ hz)
    have hyys : ∀ z ∈ ys, y < z := fun z hz =>
      (List.pairwise_cons.mp (List.pairwise_cons.mp hsort).2).1 _ hz
    have hyssort : ys.Pairwise (· < ·) :=
      (List.pairwise_cons.mp (List.pairwise_cons.mp hsort).2).2
    by_cases hc : f a < f y
    · rw [if_pos hc] at hfm ⊢
      have ih := foldl_argmax_first f ys y (List.pairwise_cons.mpr ⟨hyys, hyssort⟩)
      rcases List.mem_cons.mp hm with h | h
      · exfalso
        subst h
        have h1 := foldl_argmax_le f ys y y (List.mem_cons_self _ _)
        rw [← hfm] at h1
        exact absurd (lt_of_lt_of_le hc h1) (lt_irrefl _)
      · exact ih m h hfm
    · rw [if_neg hc] at hfm ⊢
      have ih := foldl_argmax_first f ys a (List.pairwise_cons.mpr ⟨hays, hyssort⟩)
      rcases List.mem_cons.mp hm with h | h
      · subst h
        exact ih m (List.mem_cons_self _ _) hfm
      · rcases List.mem_cons.mp h with h1 | h1
        · subst h1
          have h2 := foldl_argmax_le f ys a a (List.mem_cons_self _ _)
          have hfa : f a = f (ys.foldl (fun b l => if f b < f l then l else b) a) :=
            le_antisymm h2 (hfm ▸ le_of_not_lt hc)
          have hba := ih a (List.mem_cons_self _ _) hfa
          exact le_of_lt (lt_of_le_of_lt hba hay)
        · exact ih m (List.mem_cons_of_mem _ h1) hfm

theorem argmaxFirst_mem {f : ℤ → ℚ} {xs : List ℤ} {b : ℤ}
    (h : argmaxFirst f xs = some b) : b ∈ xs := by
  cases xs with
  | nil => cases h
  | cons x xs =>
    rw [argmaxFirst] at h
    injection h with h
    exact h ▸ foldl_argmax_mem f xs x

theorem argmaxFirst_le {f : ℤ → ℚ} {xs : List ℤ} {b : ℤ}
    (h : argmaxFirst f xs = some b) : ∀ l ∈ xs, f l ≤ f b := by
  cases xs with
  | nil => cases h
  | cons x xs =>
    rw [argmaxFirst] at h
    injection h with h
    exact fun l hl => h ▸ foldl_argmax_le f xs x l hl

theorem argmaxFirst_first {f : ℤ → ℚ} {xs : List ℤ} {b : ℤ}
    (hsort : xs.Pairwise (· < ·)) (h : argmaxFirst f xs = some b) :
    ∀ l ∈ xs, f l = f b → b ≤ l := by
  cases xs with
  | nil => cases h
  | cons x xs =>
    rw [argmaxFirst] at h
    injection h with h
    exact fun l hl hfl => h ▸ foldl_argmax_first f xs x hsort l hl (h ▸ hfl)

theorem argmaxFirst_isSome {f : ℤ → ℚ} {xs : List ℤ} (h : xs ≠ []) :
    (argmaxFirst f xs).isSome = true := by
  cases xs with
  | nil => exact absurd rfl h
  | cons x xs => rw [argmaxFirst]; rfl

/-! ## Structural lemmas about the aligner -/

theorem correlation_lags_pairwise (la lv : ℕ) :
    (correlation_lags la lv).Pairwise (· < ·) := by
  rw [correlation_lags]
  exact List.Pairwise.map _
    (fun a b hab => by
      show (a : ℤ) + 1 - (lv : ℤ) < (b : ℤ) + 1 - (lv : ℤ)
      omega)
    (List.pairwise_lt_range _)

theorem validLags_pairwise (reference target : List ℚ) (rate : ℕ) (md : ℚ) :
    (validLags reference target rate md).Pairwise (· < ·) :=
  (correlation_lags_pairwise _ _).filter _

theorem mem_correlation_lags {la lv : ℕ} {l : ℤ}
    (h : l ∈ correlation_lags la lv) :
    1 - (lv : ℤ) ≤ l ∧ l ≤ (la : ℤ) - 1 := by
  rw [correlation_lags] at h
  rcases List.mem_map.mp h with ⟨i, hi, rfl⟩
  have := List.mem_range.mp hi
  omega

theorem truncLen_le_ref (reference target : List ℚ) (rate : ℕ) :
    truncLen reference target rate ≤ reference.length :=
  le_trans (min_le_left _ _) (min_le_left _ _)

theorem truncLen_le_tgt (reference target : List ℚ) (rate : ℕ) :
    truncLen reference target rate ≤ target.length :=
  le_trans (min_le_left _ _) (min_le_right _ _)

theorem refT_length (reference target : List ℚ) (rate : ℕ) :
    (refT reference target rate).length = truncLen reference target rate := by
  rw [refT, List.length_take]
  exact min_eq_left (truncLen_le_ref reference target rate)

theorem tgtT_length (reference target : List ℚ) (rate : ℕ) :
    (tgtT reference target rate).length = truncLen reference target rate := by
  rw [tgtT, List.length_take]
  exact min_eq_left (truncLen_le_tgt reference target rate)

theorem selectedLag_bounds {reference target : List ℚ} {rate : ℕ} {md : ℚ} {lag : ℤ}
    (h : selectedLag reference target rate md = some lag) :
    1 ≤ truncLen reference target rate ∧
      1 - (truncLen reference target rate : ℤ) ≤ lag ∧
      lag ≤ (truncLen reference target rate : ℤ) - 1 := by
  have hmem : lag ∈ validLags reference target rate md := argmaxFirst_mem h
  have hmem2 : lag ∈ correlation_lags (tgtT reference target rate).length
      (refT reference target rate).length := List.mem_of_mem_filter hmem
  rw [tgtT_length, refT_length] at hmem2
  have hb := mem_correlation_lags hmem2
  have hpos : 1 ≤ truncLen reference target rate := by
    by_contra hne
    have h0 : truncLen reference target rate = 0 := by omega
    rw [h0] at hb
    omega
  exact ⟨hpos, hb.1, hb.2⟩

/-! ## Decision gate and metric calculator claims -/

/-- Claim C8: the Decision Gate verdict is true if and only if all five
conditions hold — sample rates match, channel counts match, correlation ≥
minimum, spectral similarity ≥ minimum, |RMS difference| ≤ maximum — with
the metric comparisons inclusive at the boundary. -/
theorem decision_gate_iff (srm crm : Bool) (corr spectral rms minc mins maxr : ℚ) :
    validate_ok srm crm corr spectral rms minc mins maxr = true ↔
      (srm = true ∧ crm = true ∧ minc ≤ corr ∧ mins ≤ spectral ∧ |rms| ≤ maxr) := by
  simp [validate_ok, and_assoc]

/-- Claim C1 (code bug): on zero-length aligned series `compute_metrics`
returns the 2-tuple `(0.0, 0.0)` (line 68) instead of a 3-value
maximal-mismatch MetricSet, contradicting its own declared return type
`tuple[float, float, float]`; the 3-way unpacking at line 109 of `validate`
therefore raises `ValueError` — the run crashes rather than treating the
case as maximal mismatch. -/
theorem compute_metrics_zero_length_arity :
    compute_metrics ([] : List ℚ) ([] : List ℚ) = [some 0, some 0] ∧
      (compute_metrics ([] : List ℚ) ([] : List ℚ)).length ≠ 3 := by
  refine ⟨?_, ?_⟩ <;> simp [compute_metrics]

/-- Claim C7 (counterexample): on a signal with one sample and zero
channels the spec-modelled Down-mixer fails with `EmptySignalError`, but
the source's `mix_down` raises nothing and returns a series containing a
NaN sample. -/
theorem mix_down_no_empty_error :
    mix_down_spec [[]] = Except.error SignalError.emptySignal ∧
      mix_down [[]] = [none] := by
  refine ⟨?_, ?_⟩ <;> rfl

/-- Claim C7 (amended): `mix_down` never fails: it is total with one output
sample per input frame; a frame with C ≥ 1 channels yields the arithmetic
mean of its C samples, and a zero-channel frame yields NaN (`none`) instead
of an error. -/
theorem mix_down_mean (data : List (List ℚ)) (i : ℕ) (frame : List ℚ) :
    (mix_down data).length = data.length ∧
      (data.get? i = some frame → frame ≠ [] →
        (mix_down data).get? i = some (some (frame.sum / (frame.length : ℚ)))) := by
  constructor
  · simp [mix_down]
  · intro h hne
    have hlen : frame.length ≠ 0 := fun h0 => hne (List.length_eq_zero.mp h0)
    rw [mix_down, List.get?_map, h, Option.map_some', if_neg hlen]

/-- Witness for the amended C7 theorem at a concrete two-channel frame. -/
theorem mix_down_mean_witness :
    (mix_down [[1, 3]]).get? 0 = some (some 2) := by
  have h := (mix_down_mean [[1, 3]] 0 [1, 3]).2 rfl (by simp)
  norm_num [List.sum_cons, List.sum_nil] at h
  exact h

/-- Claim C9: for unequal nonzero lengths, `compute_metrics` computes all
metrics over only the first `min(len(reference), len(target))` samples of
each series — the result coincides with the result on the pre-truncated
series, i.e. the tail of the longer series is silently discarded. -/
theorem compute_metrics_truncates (reference target : List ℚ)
    (hne : reference.length ≠ target.length)
    (hpos : 0 < min reference.length target.length) :
    compute_metrics reference target =
      compute_metrics (reference.take (min reference.length target.length))
        (target.take (min reference.length target.length)) := by
  have h1 : (reference.take (min reference.length target.length)).length
      = min reference.length target.length := by
    rw [List.length_take]
    exact min_eq_left (min_le_left _ _)
  have h2 : (target.take (min reference.length target.length)).length
      = min reference.length target.length := by
    rw [List.length_take]
    exact min_eq_left (min_le_right _ _)
  simp only [compute_metrics, h1, h2, min_self, List.take_take]

/-- Witness for the C9 theorem at series of lengths 2 and 1. -/
theorem compute_metrics_truncates_witness :
    compute_metrics [1, 2] [3] = compute_metrics [1] [3] := by
  have h := compute_metrics_truncates [1, 2] [3] (by decide) (by decide)
  simpa using h

/-- Claim C10: swapping the arguments of the RMS level difference negates
it: `20·log10(B/A) = -20·log10(A/B)` with the same 1e-12 floor on both RMS
values. -/
theorem rms_db_antisymm (reference target : List ℚ)
    (hlen : reference.length = target.length) :
    rms_db reference target = - rms_db target reference := by
  rw [rms_db, rms_db,
    (inv_div (rmsFloor reference) (rmsFloor target)).symm, Real.logb_inv]
  ring

/-- Witness for the C10 theorem at two concrete one-sample series. -/
theorem rms_db_antisymm_witness :
    rms_db [1] [2] = - rms_db [2] [1] :=
  rms_db_antisymm [1] [2] rfl

/-- Claim C2 (amended): the correlation metric is `0` when either aligned
series has zero samples (line 68), but when both have at least one sample
and either has zero variance, `np.corrcoef` produces NaN (embedded `none`),
not `0` — the indeterminate propagates to the gate comparison. -/
theorem correlation_degenerate (reference target : List ℚ) :
    (min reference.length target.length = 0 →
      (compute_metrics reference target).get? 0 = some (some 0)) ∧
    (0 < min reference.length target.length →
      (sxy (reference.take (min reference.length target.length))
           (reference.take (min reference.length target.length)) = 0 ∨
       sxy (target.take (min reference.length target.length))
           (target.take (min reference.length target.length)) = 0) →
      (compute_metrics reference target).get? 0 = some none) := by
  constructor
  · intro h0
    rw [compute_metrics, if_pos h0]
    rfl
  · intro hpos hvar
    rw [compute_metrics, if_neg (Nat.pos_iff_ne_zero.mp hpos)]
    show some (corrcoef _ _) = some none
    rw [corrcoef, if_pos hvar]

/-- Witness for the amended C2 theorem: the zero-sample case at two empty
series and the zero-variance case at two all-zero length-2 series. -/
theorem correlation_degenerate_witness :
    (compute_metrics ([] : List ℚ) ([] : List ℚ)).get? 0 = some (some 0) ∧
      (compute_metrics [0, 0] [0, 0]).get? 0 = some none := by
  constructor
  · exact (correlation_degenerate [] []).1 (by decide)
  · refine (correlation_degenerate [0, 0] [0, 0]).2 (by decide) (Or.inl ?_)
    norm_num [sxy, List.take]

/-- Claim C2 (counterexample): on the all-zero pair `[0,0], [0,0]` (zero
variance, nonzero length) the correlation metric is the NaN indeterminate
(`none`), not `0`. -/
theorem correlation_nan_on_zero_variance :
    (compute_metrics [0, 0] [0, 0]).get? 0 = some none ∧
      some (none : Option ℝ) ≠ some (some (0 : ℝ)) := by
  constructor
  · rw [compute_metrics, if_neg (by norm_num)]
    show some (corrcoef _ _) = some none
    rw [corrcoef, if_pos (Or.inl (by norm_num [sxy, List.take]))]
  · simp

/-! ## Aligner claims -/

theorem eval_ms50 : max_samples_of 1000 50 = 50 := by
  norm_num [max_samples_of, int_trunc]

theorem eval_ms_half : max_samples_of 1000 (1 / 2) = 0 := by
  norm_num [max_samples_of, int_trunc]
  decide

/-- Reduction of `align_signals` once the selected lag is known. -/
theorem align_signals_of_sel {reference target : List ℚ} {rate : ℕ} {md : ℚ} {lag : ℤ}
    (hsel : selectedLag reference target rate md = some lag) :
    align_signals reference target rate md =
      (if 0 < lag then
        some (if lag < (reference.length : ℤ)
                then reference.take (reference.length - lag.toNat) else [],
              target.drop lag.toNat, lag)
      else if lag < 0 then
        some (reference.drop (-lag).toNat,
              target.take (target.length - (-lag).toNat), lag)
      else some (reference, target, lag)) := by
  unfold align_signals
  rw [hsel]

/-- Reduction of `align_signals` when no candidate lag exists. -/
theorem align_signals_of_none {reference target : List ℚ} {rate : ℕ} {md : ℚ}
    (hsel : selectedLag reference target rate md = none) :
    align_signals reference target rate md = none := by
  unfold align_signals
  rw [hsel]

/-- Dissection of a successful `align_signals` run into the three slicing
branches of lines 49-57. -/
theorem align_signals_cases {reference target : List ℚ} {rate : ℕ} {md : ℚ}
    {aref atgt : List ℚ} {lag : ℤ}
    (h : align_signals reference target rate md = some (aref, atgt, lag)) :
    selectedLag reference target rate md = some lag ∧
      ((0 < lag ∧
          aref = (if lag < (reference.length : ℤ)
                    then reference.take (reference.length - lag.toNat) else []) ∧
          atgt = target.drop lag.toNat) ∨
       (lag < 0 ∧ aref = reference.drop (-lag).toNat ∧
          atgt = target.take (target.length - (-lag).toNat)) ∨
       (lag = 0 ∧ aref = reference ∧ atgt = target)) := by
  cases hsel : selectedLag reference target rate md with
  | none => rw [align_signals_of_none hsel] at h; cases h
  | some lag0 =>
    rw [align_signals_of_sel hsel] at h
    by_cases h1 : 0 < lag0
    · rw [if_pos h1] at h
      simp only [Option.some.injEq, Prod.mk.injEq] at h
      obtain ⟨ha, hb, hc⟩ := h
      subst hc
      exact ⟨rfl, Or.inl ⟨h1, ha.symm, hb.symm⟩⟩
    · rw [if_neg h1] at h
      by_cases h2 : lag0 < 0
      · rw [if_pos h2] at h
        simp only [Option.some.injEq, Prod.mk.injEq] at h
        obtain ⟨ha, hb, hc⟩ := h
        subst hc
        exact ⟨rfl, Or.inr (Or.inl ⟨h2, ha.symm, hb.symm⟩)⟩
      · rw [if_neg h2] at h
        simp only [Option.some.injEq, Prod.mk.injEq] at h
        obtain ⟨ha, hb, hc⟩ := h
        subst hc
        exact ⟨rfl, Or.inr (Or.inr
          ⟨le_antisymm (le_of_not_lt h1) (le_of_not_lt h2), ha.symm, hb.symm⟩)⟩

/-- The selected lag is strictly smaller in magnitude than both input
lengths (it ranges over `±(truncLen - 1)`). -/
theorem selectedLag_abs_lt {reference target : List ℚ} {rate : ℕ} {md : ℚ} {lag : ℤ}
    (h : selectedLag reference target rate md = some lag) :
    -(reference.length : ℤ) < lag ∧ lag < (reference.length : ℤ) ∧
      -(target.length : ℤ) < lag ∧ lag < (target.length : ℤ) := by
  obtain ⟨h1, h2, h3⟩ := selectedLag_bounds h
  have hr := truncLen_le_ref reference target rate
  have ht := truncLen_le_tgt reference target rate
  omega

/-- Claim C3 (amended): when the two input series have equal length, the
two aligned series returned by `align_signals` have identical length.  (The
function performs no truncation to the shorter length itself — for
unequal-length inputs the length difference survives, cf. the
counterexample — equality of the aligned lengths comes from the slicing
alone.) -/
theorem align_signals_eq_length (reference target : List ℚ) (rate : ℕ) (md : ℚ)
    (aref atgt : List ℚ) (lag : ℤ)
    (hlen : reference.length = target.length)
    (h : align_signals reference target rate md = some (aref, atgt, lag)) :
    aref.length = atgt.length := by
  obtain ⟨hsel, hcases⟩ := align_signals_cases h
  obtain ⟨hg1, hg2, hg3, hg4⟩ := selectedLag_abs_lt hsel
  rcases hcases with ⟨hpos, ha, hb⟩ | ⟨hneg, ha, hb⟩ | ⟨hz, ha, hb⟩
  · rw [ha, if_pos hg2, hb, List.length_take, List.length_drop]
    rw [min_eq_left (Nat.sub_le _ _)]
    omega
  · rw [ha, hb, List.length_drop, List.length_take]
    rw [min_eq_left (Nat.sub_le _ _)]
    omega
  · rw [ha, hb, hlen]

theorem eval_validLags_c3 : validLags [1, 2] [1] 1000 50 = [0] := by
  simp only [validLags, eval_ms50]
  decide

theorem eval_selectedLag_c3 : selectedLag [1, 2] [1] 1000 50 = some 0 := by
  rw [selectedLag, eval_validLags_c3]
  rfl

/-- Claim C3 (counterexample): on inputs of lengths 2 and 1 the aligner
selects lag 0 and returns the untouched inputs, whose lengths differ — the
AlignmentResult is not truncated to the shorter length. -/
theorem align_signals_unequal_length :
    align_signals [1, 2] [1] 1000 50 = some ([1, 2], [1], 0) ∧
      ([1, 2] : List ℚ).length ≠ ([1] : List ℚ).length := by
  constructor
  · rw [align_signals_of_sel eval_selectedLag_c3]
    rfl
  · decide

theorem eval_validLags_11 : validLags [1] [1] 1000 50 = [0] := by
  simp only [validLags, eval_ms50]
  decide

theorem eval_selectedLag_11 : selectedLag [1] [1] 1000 50 = some 0 := by
  rw [selectedLag, eval_validLags_11]
  rfl

theorem eval_align_11 : align_signals [1] [1] 1000 50 = some ([1], [1], 0) := by
  rw [align_signals_of_sel eval_selectedLag_11]
  rfl

/-- Witness for the amended C3 theorem at two equal-length inputs. -/
theorem align_signals_eq_length_witness :
    ([1] : List ℚ).length = ([1] : List ℚ).length :=
  align_signals_eq_length [1] [1] 1000 50 [1] [1] 0 rfl eval_align_11

/-- Claim C4 (amended): among the window-restricted candidate lags, the
aligner selects a lag attaining the maximum cross-correlation, and among
tied maxima it selects the one earliest in scan order — the most negative
tied lag (the candidate list is sorted increasingly), not the one of
smallest absolute value. -/
theorem selectedLag_first_max (reference target : List ℚ) (rate : ℕ) (md : ℚ) (b : ℤ)
    (h : selectedLag reference target rate md = some b) :
    b ∈ validLags reference target rate md ∧
      ∀ l ∈ validLags reference target rate md,
        alignCorr reference target rate l ≤ alignCorr reference target rate b ∧
          (alignCorr reference target rate l = alignCorr reference target rate b →
            b ≤ l) :=
  ⟨argmaxFirst_mem h, fun l hl =>
    ⟨argmaxFirst_le h l hl,
     fun heq => argmaxFirst_first (validLags_pairwise _ _ _ _) h l hl heq⟩⟩

/-- Witness for the amended C4 theorem at a one-sample pair. -/
theorem selectedLag_first_max_witness :
    alignCorr [1] [1] 1000 0 ≤ alignCorr [1] [1] 1000 0 ∧
      (alignCorr [1] [1] 1000 0 = alignCorr [1] [1] 1000 0 → (0 : ℤ) ≤ 0) := by
  have h := (selectedLag_first_max [1] [1] 1000 50 0 eval_selectedLag_11).2 0
  rw [eval_validLags_11] at h
  exact h (by decide)

theorem eval_validLags_c4 : validLags [2, 0, 1] [2, 1, -3] 1000 50 = [-2, -1, 0, 1, 2] := by
  simp only [validLags, eval_ms50]
  decide

theorem eval_ac_c4_m2 : alignCorr [2, 0, 1] [2, 1, -3] 1000 (-2) = 2 := by
  show corrAt [2, 1, -3] [2, 0, 1] (-2) = 2
  norm_num [corrAt, List.range_succ] <;> rfl

theorem eval_ac_c4_m1 : alignCorr [2, 0, 1] [2, 1, -3] 1000 (-1) = 1 := by
  show corrAt [2, 1, -3] [2, 0, 1] (-1) = 1
  norm_num [corrAt, List.range_succ] <;> rfl

theorem eval_ac_c4_0 : alignCorr [2, 0, 1] [2, 1, -3] 1000 0 = 1 := by
  show corrAt [2, 1, -3] [2, 0, 1] 0 = 1
  norm_num [corrAt, List.range_succ] <;> rfl

theorem eval_ac_c4_1 : alignCorr [2, 0, 1] [2, 1, -3] 1000 1 = 2 := by
  show corrAt [2, 1, -3] [2, 0, 1] 1 = 2
  norm_num [corrAt, List.range_succ] <;> rfl

theorem eval_ac_c4_2 : alignCorr [2, 0, 1] [2, 1, -3] 1000 2 = -6 := by
  show corrAt [2, 1, -3] [2, 0, 1] 2 = -6
  norm_num [corrAt, List.range_succ] <;> rfl

/-- Claim C4 (counterexample): on `ref = [2,0,1]`, `tgt = [2,1,-3]` the lags
`-2` and `1` tie for the maximal cross-correlation value `2`, and the
aligner selects `-2` (first in scan order), not the tied lag `1` of
strictly smaller absolute value. -/
theorem selectedLag_not_smallest_abs :
    selectedLag [2, 0, 1] [2, 1, -3] 1000 50 = some (-2) ∧
      (1 : ℤ) ∈ validLags [2, 0, 1] [2, 1, -3] 1000 50 ∧
      alignCorr [2, 0, 1] [2, 1, -3] 1000 1 = alignCorr [2, 0, 1] [2, 1, -3] 1000 (-2) ∧
      (1 : ℤ).natAbs < (-2 : ℤ).natAbs := by
  refine ⟨?_, ?_, ?_, by decide⟩
  · rw [selectedLag, eval_validLags_c4, argmaxFirst]
    norm_num [List.foldl, eval_ac_c4_m2, eval_ac_c4_m1, eval_ac_c4_0,
      eval_ac_c4_1, eval_ac_c4_2]
  · rw [eval_validLags_c4]
    decide
  · rw [eval_ac_c4_1, eval_ac_c4_m2]

/-- Claim C5 (amended): `align_signals` applies the selected lag to the
untruncated inputs with the opposite orientation to the claim: for a
positive lag the reference loses its last `lag` samples and the target
loses its first `lag` samples; for a negative lag the reference loses its
first `|lag|` samples and the target its last `|lag|`; lag 0 returns both
untouched. -/
theorem align_signals_slice (reference target : List ℚ) (rate : ℕ) (md : ℚ)
    (aref atgt : List ℚ) (lag : ℤ)
    (h : align_signals reference target rate md = some (aref, atgt, lag)) :
    (0 < lag → aref = reference.take (reference.length - lag.toNat) ∧
               atgt = target.drop lag.toNat) ∧
    (lag < 0 → aref = reference.drop (-lag).toNat ∧
               atgt = target.take (target.length - (-lag).toNat)) ∧
    (lag = 0 → aref = reference ∧ atgt = target) := by
  obtain ⟨hsel, hcases⟩ := align_signals_cases h
  obtain ⟨hg1, hg2, hg3, hg4⟩ := selectedLag_abs_lt hsel
  rcases hcases with ⟨hpos, ha, hb⟩ | ⟨hneg, ha, hb⟩ | ⟨hz, ha, hb⟩
  · rw [if_pos hg2] at ha
    exact ⟨fun _ => ⟨ha, hb⟩, fun hneg => absurd hpos (asymm hneg),
      fun hz => absurd hz (ne_of_gt hpos)⟩
  · exact ⟨fun hpos => absurd hneg (asymm hpos), fun _ => ⟨ha, hb⟩,
      fun hz => absurd hz (ne_of_lt hneg)⟩
  · subst hz
    exact ⟨fun hpos => absurd hpos (lt_irrefl _),
      fun hneg => absurd hneg (lt_irrefl _), fun _ => ⟨ha, hb⟩⟩

/-- Witness for the amended C5 theorem: the zero-lag branch at a concrete
one-sample pair. -/
theorem align_signals_slice_witness :
    ([1] : List ℚ) = [1] ∧ ([1] : List ℚ) = [1] :=
  (align_signals_slice [1] [1] 1000 50 [1] [1] 0 eval_align_11).2.2 rfl

theorem eval_validLags_c5 : validLags [1, 0, 0] [0, 1, 0] 1000 50 = [-2, -1, 0, 1, 2] := by
  simp only [validLags, eval_ms50]
  decide

theorem eval_ac_c5_m2 : alignCorr [1, 0, 0] [0, 1, 0] 1000 (-2) = 0 := by
  show corrAt [0, 1, 0] [1, 0, 0] (-2) = 0
  norm_num [corrAt, List.range_succ] <;> rfl

theorem eval_ac_c5_m1 : alignCorr [1, 0, 0] [0, 1, 0] 1000 (-1) = 0 := by
  show corrAt [0, 1, 0] [1, 0, 0] (-1) = 0
  norm_num [corrAt, List.range_succ] <;> rfl

theorem eval_ac_c5_0 : alignCorr [1, 0, 0] [0, 1, 0] 1000 0 = 0 := by
  show corrAt [0, 1, 0] [1, 0, 0] 0 = 0
  norm_num [corrAt, List.range_succ] <;> rfl

theorem eval_ac_c5_1 : alignCorr [1, 0, 0] [0, 1, 0] 1000 1 = 1 := by
  show corrAt [0, 1, 0] [1, 0, 0] 1 = 1
  norm_num [corrAt, List.range_succ] <;> rfl

theorem eval_ac_c5_2 : alignCorr [1, 0, 0] [0, 1, 0] 1000 2 = 0 := by
  show corrAt [0, 1, 0] [1, 0, 0] 2 = 0
  norm_num [corrAt, List.range_succ] <;> rfl

theorem eval_selectedLag_c5 : selectedLag [1, 0, 0] [0, 1, 0] 1000 50 = some 1 := by
  rw [selectedLag, eval_validLags_c5, argmaxFirst]
  norm_num [List.foldl, eval_ac_c5_m2, eval_ac_c5_m1, eval_ac_c5_0,
    eval_ac_c5_1, eval_ac_c5_2]

/-- Claim C5 (counterexample): on `ref = [1,0,0]`, `tgt = [0,1,0]` the
aligner selects lag 1 and returns `ref[:-1] = [1,0]` and `tgt[1:] = [1,0]`;
the claim predicts the reference loses its first sample (`[0,0]`) and the
target its last (`[0,1]`) — both predictions differ from the actual
slices. -/
theorem align_signals_slice_direction :
    align_signals [1, 0, 0] [0, 1, 0] 1000 50 = some ([1, 0], [1, 0], 1) ∧
      ([1, 0] : List ℚ) ≠ ([1, 0, 0] : List ℚ).drop 1 ∧
      ([1, 0] : List ℚ) ≠ ([0, 1, 0] : List ℚ).take (3 - 1) := by
  refine ⟨?_, by norm_num, by norm_num⟩
  rw [align_signals_of_sel eval_selectedLag_c5]
  norm_num

/-- Claim C6 (amended): lag 0 always survives the window restriction, so
for any nonempty inputs, positive rate and nonnegative `max_delay_ms` —
including a `max_delay_ms` smaller than one sample period, where
`max_samples = 0` — the aligner returns a result (lag 0 being the only
candidate in that case); it never fails with a window error. -/
theorem align_signals_total (reference target : List ℚ) (rate : ℕ) (md : ℚ)
    (href : reference ≠ []) (htgt : target ≠ []) (hrate : 1 ≤ rate) (hmd : 0 ≤ md) :
    (align_signals reference target rate md).isSome = true := by
  have hms : 0 ≤ max_samples_of rate md := by
    rw [max_samples_of, int_trunc]
    apply Int.tdiv_nonneg
    · rw [Rat.num_nonneg]
      positivity
    · exact_mod_cast Nat.zero_le _
  have hL : 1 ≤ truncLen reference target rate := by
    have h1 : 1 ≤ reference.length := List.length_pos.mpr href
    have h2 : 1 ≤ target.length := List.length_pos.mpr htgt
    rw [truncLen]
    omega
  have h0 : (0 : ℤ) ∈ validLags reference target rate md := by
    rw [validLags]
    apply List.mem_filter.mpr
    refine ⟨?_, by simpa using hms⟩
    rw [tgtT_length, refT_length, correlation_lags]
    apply List.mem_map.mpr
    refine ⟨truncLen reference target rate - 1, List.mem_range.mpr (by omega), ?_⟩
    push_cast [Nat.cast_sub hL]
    ring
  cases hsel : selectedLag reference target rate md with
  | none =>
    exfalso
    have hne : validLags reference target rate md ≠ [] := by
      intro he
      rw [he] at h0
      cases h0
    have hs := argmaxFirst_isSome (f := alignCorr reference target rate) hne
    rw [selectedLag] at hsel
    rw [hsel] at hs
    simp at hs
  | some lag =>
    rw [align_signals_of_sel hsel]
    split_ifs <;> rfl

/-- Witness for the amended C6 theorem at a concrete nonempty pair. -/
theorem align_signals_total_witness :
    (align_signals [1] [1] 1000 50).isSome = true :=
  align_signals_total [1] [1] 1000 50 (by decide) (by decide) (by decide) (by norm_num)

theorem eval_validLags_c6 : validLags [1, 2] [1, 2] 1000 (1 / 2) = [0] := by
  simp only [validLags, eval_ms_half]
  decide

theorem eval_selectedLag_c6 : selectedLag [1, 2] [1, 2] 1000 (1 / 2) = some 0 := by
  rw [selectedLag, eval_validLags_c6]
  rfl

/-- Claim C6 (counterexample): with `rate = 1000` and `max_delay_ms = 0.5`
— smaller than the 1 ms sample period, so `max_samples = int(0.5) = 0` —
the aligner does not fail: lag 0 is still a candidate and `align_signals`
returns the untouched series with lag 0.  No `AlignmentWindowError` exists
in the source. -/
theorem align_signals_no_window_error :
    (1 / 2 : ℚ) * 1000 < 1000 ∧
      align_signals [1, 2] [1, 2] 1000 (1 / 2) = some ([1, 2], [1, 2], 0) := by
  constructor
  · norm_num
  · rw [align_signals_of_sel eval_selectedLag_c6]
    rfl

end ValidateOutput
